import Mathlib

/-!
Shallow embedding of the query-and-serialization core found in
`devicetracker_httpd.cc` (kismet device tracker HTTP interface).

Device records are modelled as a primary key, a last-seen timestamp and a
finite assignment of resolved field-id paths to scalar values.  The
datatable ("summary") query pipeline of `Httpd_PostComplete` is translated
piecewise: parameter decoding, candidate planning, the stable sort, the
pagination slice, summarization, and the lock-event traces of each branch.
-/

/-- Modelled from the spec (§3): a device record with its primary key, its
last-seen timestamp, and the nested field tree flattened to an assignment of
resolved field-id paths to scalar values. -/
structure Device where
  key : Nat
  last_time : Int
  fields : List (List Int × Int)
deriving DecidableEq, Repr

/-- One entry of the summary vector: a resolved field-id path plus the output
name (`TrackerElementSummary`, entry built at devicetracker_httpd.cc:516-541). -/
structure SummaryField where
  resolved_path : List Int
  rename : String
deriving DecidableEq, Repr

/-- Modelled from the spec (§4.1 `childPath`; `GetTrackerElementPath` lives in
devicetracker.cc, which is not under src/): walk a resolved field-id path
inside a record, returning the scalar there; an empty or unresolvable path
yields no value. -/
def GetTrackerElementPath (path : List Int) (d : Device) : Option Int :=
  if path = [] then none else d.fields.lookup path

/-- Modelled from the spec (§4.7 "comparing the resolved field values";
`operator<` on elements lives in trackedelement.h, not under src/): strict
comparison of two resolved values, an absent value ordering below every
present one. -/
def tracker_element_lt : Option Int → Option Int → Bool
  | none, none => false
  | none, some _ => true
  | some _, none => false
  | some a, some b => decide (a < b)

/-- The comparator lambda passed to `kismet__stable_sort`
(devicetracker_httpd.cc:846-857, 903-915, 956-968): with `dt_order_dir == 0`
it compares `fa < fb`, otherwise `fb < fa`. -/
def dt_sort_comp (dt_order_field : List Int) (dt_order_dir : Nat)
    (a b : Device) : Bool :=
  if dt_order_dir = 0 then
    tracker_element_lt (GetTrackerElementPath dt_order_field a)
      (GetTrackerElementPath dt_order_field b)
  else
    tracker_element_lt (GetTrackerElementPath dt_order_field b)
      (GetTrackerElementPath dt_order_field a)

/-- Stable insertion: place `a` before the first element `b` with `le a b`. -/
def stable_insert {α : Type} (le : α → α → Bool) (a : α) : List α → List α
  | [] => [a]
  | b :: l => if le a b then a :: b :: l else b :: stable_insert le a l

/-- Insertion sort, stable for the non-strict relation `le`. -/
def insertion_sort {α : Type} (le : α → α → Bool) : List α → List α
  | [] => []
  | a :: l => stable_insert le a (insertion_sort le l)

/-- Modelled from the spec (§4.7 "stable-sort"; `kismet__stable_sort` is
declared in kismet_algorithm.h, not under src/): a stable sort taking a strict
comparator, as `std::stable_sort` does; realised as a stable insertion sort
over the induced non-strict relation. -/
def kismet__stable_sort {α : Type} (comp : α → α → Bool) (l : List α) :
    List α :=
  insertion_sort (fun x y => ! comp y x) l

/-- devicetracker_httpd.cc:780-786: the page length fallback — a non-positive
or over-200 `in_dt_length` (including the garbage value read when the form
variable is absent) falls back to 50. -/
def dt_length_of (in_dt_length : Int) : Nat :=
  if in_dt_length ≤ 0 ∨ 200 < in_dt_length then 50 else in_dt_length.toNat

/-- devicetracker_httpd.cc:788-791: negative start offsets clamp to 0. -/
def dt_start_of (in_dt_start : Int) : Nat :=
  if in_dt_start < 0 then 0 else in_dt_start.toNat

/-- devicetracker_httpd.cc:759-767: the sort column defaults to -1, and a
column at or past the summary-vector length is reset to -1; a negative
parsed column is kept as parsed (it is never sorted on, since sorting
requires `dt_order_col >= 0`). -/
def dt_order_col_of (order_param : Option Int) (sv_len : Nat) : Int :=
  let c : Int := match order_param with
    | some v => v
    | none => -1
  if (sv_len : Int) ≤ c then -1 else c

/-- devicetracker_httpd.cc:769-778: the direction flag is 1 exactly when the
column is valid, the `order[0][dir]` variable is present and equals "asc";
otherwise it stays 0. -/
def dt_order_dir_of (dt_order_col : Int) (dir_param : Option String) : Nat :=
  match dir_param with
  | some s => if 0 ≤ dt_order_col ∧ s = "asc" then 1 else 0
  | none => 0

/-- devicetracker_httpd.cc:769-778: the resolved sort path is assigned only
inside the same guard — with a valid column but no `order[0][dir]` variable
the field stays the empty path. -/
def dt_order_field_of (dt_order_col : Int) (dir_param : Option String)
    (summary_vec : List SummaryField) : List Int :=
  match dir_param with
  | some _ =>
    if 0 ≤ dt_order_col then
      match summary_vec[dt_order_col.toNat]? with
      | some f => f.resolved_path
      | none => []
    else []
  | none => []

/-- devicetracker_httpd.cc:737-755: walk the summary-vector columns in order,
collecting the resolved path of each column whose `columns[ci][searchable]`
form variable equals "true", and stopping at the first column whose
searchable variable is absent. -/
def dt_search_paths_go (searchable : Nat → Option String) :
    List SummaryField → Nat → List (List Int)
  | [], _ => []
  | f :: rest, ci =>
    match searchable ci with
    | some s =>
      if s = "true" then
        f.resolved_path :: dt_search_paths_go searchable rest (ci + 1)
      else
        dt_search_paths_go searchable rest (ci + 1)
    | none => []

/-- devicetracker_httpd.cc:730-757: the searchable-path set is built only when
the search string is non-empty. -/
def dt_search_paths_of (dt_search : String) (summary_vec : List SummaryField)
    (searchable : Nat → Option String) : List (List Int) :=
  if dt_search.length = 0 then []
  else dt_search_paths_go searchable summary_vec 0

/-- devicetracker_httpd.cc:821, 884, 944: candidate-selection precedence of
the summary endpoint — a present regex filter runs over the full scan;
otherwise a non-empty searchable-path set routes to the substring worker;
otherwise the full ordered scan is the candidate list.  The two workers
(`devicetracker_pcre_worker`, `devicetracker_stringmatch_worker`) live
outside src/ and are passed in abstractly. -/
def plan_candidates (pcre_worker : String → List Device → List Device)
    (stringmatch_worker : String → List (List Int) → List Device → List Device)
    (regexdata : Option String) (dt_search : String)
    (dt_search_paths : List (List Int)) (tracked_vec : List Device) :
    List Device :=
  match regexdata with
  | some rd => pcre_worker rd tracked_vec
  | none =>
    if dt_search_paths ≠ [] then
      stringmatch_worker dt_search dt_search_paths tracked_vec
    else tracked_vec

/-- Result of projecting a record through the summary vector. -/
inductive Summarized where
  | whole (d : Device)
  | proj (rows : List (String × Int))
deriving DecidableEq, Repr

/-- Modelled from the spec (§4.6; `SummarizeTrackerElement` lives in
devicetracker.cc, not under src/): project a record down to the summary
vector's resolved paths under their output names, silently omitting absent
paths; an empty summary vector returns the record unmodified. -/
def SummarizeTrackerElement (summary_vec : List SummaryField) (d : Device) :
    Summarized :=
  if summary_vec = [] then Summarized.whole d
  else Summarized.proj (summary_vec.filterMap
    (fun f => (GetTrackerElementPath f.resolved_path d).map
      (fun v => (f.rename, v))))

/-- The sort step guarded by `dt_order_col >= 0`
(devicetracker_httpd.cc:846, 903, 956). -/
def dt_sort_step (dt_order_col : Int) (dt_order_field : List Int)
    (dt_order_dir : Nat) (l : List Device) : List Device :=
  if 0 ≤ dt_order_col then
    kismet__stable_sort (dt_sort_comp dt_order_field dt_order_dir) l
  else l

/-- Observable outcome of the full-scan summary branch: the (possibly
reordered) store sequence, the records selected for summarization, and the
summarized rows. -/
structure SummaryOutcome where
  new_tracked_vec : List Device
  selected : List Device
  data : List Summarized
deriving DecidableEq, Repr

/-- devicetracker_httpd.cc:944-991, the full-scan branch of the summary
endpoint: reset the start offset against the store size, stable-sort
`tracked_vec` in place when a sort column applies, compute the end iterator
from the length, and summarize the records between the two iterators. -/
def summary_full_scan_branch (tracked_vec : List Device)
    (summary_vec : List SummaryField) (dt_start dt_length : Nat)
    (dt_order_col : Int) (dt_order_field : List Int) (dt_order_dir : Nat) :
    SummaryOutcome :=
  let s := if tracked_vec.length ≤ dt_start then 0 else dt_start
  let sorted := dt_sort_step dt_order_col dt_order_field dt_order_dir tracked_vec
  let ei := if dt_length = 0 ∨ sorted.length ≤ dt_length + s then sorted.length
    else s + dt_length
  let sel := (sorted.take ei).drop s
  ⟨sorted, sel, sel.map (SummarizeTrackerElement summary_vec)⟩

/-- The pagination slice exactly as the iterator arithmetic writes it
(devicetracker_httpd.cc:838-870, 918-943, 948-991). -/
def dt_slice_code (dt_start dt_length : Nat) (vec : List Device) :
    List Device :=
  let s := if vec.length ≤ dt_start then 0 else dt_start
  let ei := if dt_length = 0 ∨ vec.length ≤ dt_length + s then vec.length
    else s + dt_length
  (vec.take ei).drop s

/-- The pagination slice as the spec words it: `scan[s:s+l]`, with `s` reset
to 0 when `s ≥ N` and `l` meaning "through the end" when `l = 0` or
`s + l ≥ N`. -/
def dt_slice_spec (s l : Nat) (scan : List Device) : List Device :=
  let s2 := if scan.length ≤ s then 0 else s
  if l = 0 ∨ scan.length ≤ s2 + l then scan.drop s2
  else (scan.drop s2).take l

/-- devicetracker_httpd.cc:1016-1029 and 409-421: a negative last-time cutoff
is taken relative to the current time. -/
def lastts_effective (now lastts : Int) : Int :=
  if lastts < 0 then now + lastts else lastts

/-- devicetracker_httpd.cc:1040-1049 (and 430-439): the timestamp worker keeps
exactly the records whose last-seen time is strictly greater than the
adjusted cutoff (`get_last_time() <= lastts` is excluded). -/
def last_time_filter (now lastts : Int) (scan : List Device) : List Device :=
  scan.filter (fun d => decide (lastts_effective now lastts < d.last_time))

/-- Response alternatives of the POST by-key route. -/
inductive ByKeyResponse where
  | invalid_request
  | body (s : Summarized)
  | empty
  | ok_text
deriving DecidableEq, Repr

/-- devicetracker_httpd.cc:623-668 plus the fallthrough to line 1085: the POST
by-key route.  A missing device is a 400; `device` summarizes and serializes;
`set_name` without a valid session returns immediately with nothing written;
every other fallthrough writes "OK".  No path in this file mutates the store. -/
def post_by_key (dev : Option Device) (summary_vec : List SummaryField)
    (target : String) (has_valid_session : Bool) (store : List Device) :
    List Device × ByKeyResponse :=
  match dev with
  | none => (store, ByKeyResponse.invalid_request)
  | some d =>
    if target = "device" then
      (store, ByKeyResponse.body (SummarizeTrackerElement summary_vec d))
    else if target = "set_name" then
      (if has_valid_session then (store, ByKeyResponse.ok_text)
       else (store, ByKeyResponse.empty))
    else (store, ByKeyResponse.ok_text)

/-- Which payload the POST body decoder consumed. -/
inductive StructSource where
  | msgpack_payload (b64 : String)
  | json_payload (txt : String)
deriving DecidableEq, Repr

/-- devicetracker_httpd.cc:497-513: the body decoder checks the `msgpack`
variable first and only falls back to `json` when `msgpack` is absent;
neither present is a "Missing data" error. -/
def decode_post_structdata (msgpack_var json_var : Option String) :
    Except String StructSource :=
  match msgpack_var with
  | some m => Except.ok (StructSource.msgpack_payload m)
  | none =>
    match json_var with
    | some j => Except.ok (StructSource.json_payload j)
    | none => Except.error "Missing data"

/-- Lock events, two tiers (spec §4.4): the store-wide structural lock
`devicelist_mutex` and the per-record `device_mutex`. -/
inductive LockEv where
  | acq_struct
  | rel_struct
  | acq_record (k : Nat)
  | rel_record (k : Nat)
deriving DecidableEq, Repr

/-- Does the trace ever acquire a per-record lock while the structural lock
is held?  The accumulator tracks whether the structural lock is held. -/
def record_acq_while_struct_held : Bool → List LockEv → Bool
  | _, [] => false
  | _, LockEv.acq_struct :: t => record_acq_while_struct_held true t
  | _, LockEv.rel_struct :: t => record_acq_while_struct_held false t
  | held, LockEv.acq_record _ :: t => held || record_acq_while_struct_held held t
  | held, LockEv.rel_record _ :: t => record_acq_while_struct_held held t

/-- Lock events of the full-scan summary branch
(devicetracker_httpd.cc:944-992): `local_locker lock(&devicelist_mutex)` at
946 scopes the whole branch, and each selected record's `device_mutex` is
acquired at 984 inside that scope; the record locks outlive the branch in
`lock_vec` and are released after serialization. -/
def summary_full_scan_trace (sel : List Device) : List LockEv :=
  LockEv.acq_struct ::
    (sel.map (fun d => LockEv.acq_record d.key)
      ++ LockEv.rel_struct :: sel.map (fun d => LockEv.rel_record d.key))

/-- Lock events of the regex branch (devicetracker_httpd.cc:821-883):
`MatchOnDevices` scans under the structural lock and releases it before
returning (modelled from the spec, §4.3: the scan "takes the structural lock
only long enough to copy the reference sequence"); the matched records and
then the paginated records are locked only afterwards. -/
def summary_pcre_trace (matched sel : List Device) : List LockEv :=
  LockEv.acq_struct :: LockEv.rel_struct ::
    (matched.map (fun d => LockEv.acq_record d.key)
      ++ sel.map (fun d => LockEv.acq_record d.key)
      ++ matched.map (fun d => LockEv.rel_record d.key)
      ++ sel.map (fun d => LockEv.rel_record d.key))

/-- Lock events of the substring-search branch
(devicetracker_httpd.cc:884-943): same shape as the regex branch — the worker
scan holds the structural lock internally, the matched records are locked
after it returns. -/
def summary_stringmatch_trace (matched : List Device) : List LockEv :=
  LockEv.acq_struct :: LockEv.rel_struct ::
    (matched.map (fun d => LockEv.acq_record d.key)
      ++ matched.map (fun d => LockEv.rel_record d.key))

/-- Lock events of the POST by-mac route (devicetracker_httpd.cc:571-617):
`local_locker lock(&devicelist_mutex)` at 571 covers the whole handler, and
each matched record's `device_mutex` is acquired at 606 inside that scope;
`lock_vec` is destroyed before `lock` on return. -/
def post_by_mac_trace (matched : List Device) : List LockEv :=
  LockEv.acq_struct ::
    (matched.map (fun d => LockEv.acq_record d.key)
      ++ matched.map (fun d => LockEv.rel_record d.key)
      ++ [LockEv.rel_struct])

/-- Concrete device with last-seen 100 at resolved path [1]. -/
def dev100 : Device := ⟨1, 100, [([1], 100)]⟩

/-- Concrete device with last-seen 200 at resolved path [1]. -/
def dev200 : Device := ⟨2, 200, [([1], 200)]⟩

/-- Concrete summary vector `[("lastseen","ts")]` with resolved path [1]. -/
def sv_ts : List SummaryField := [⟨[1], "ts"⟩]

/-- Sorted output: the candidates stably reordered by a key — a permutation,
pairwise ordered by `le` on the keys, and with every key class kept in its
prior relative order. -/
def StableSortedBy (key : Device → Option Int)
    (le : Option Int → Option Int → Bool) (cands out : List Device) : Prop :=
  out.Perm cands ∧
  out.Pairwise (fun a b => le (key a) (key b) = true) ∧
  ∀ v, out.filter (fun d => decide (key d = v)) =
    cands.filter (fun d => decide (key d = v))

/-! ### Helper lemmas about the stable sort -/

theorem stable_insert_perm {α : Type} (le : α → α → Bool) (a : α) :
    ∀ l : List α, (stable_insert le a l).Perm (a :: l) := by
  intro l
  induction l with
  | nil => simp [stable_insert]
  | cons b t ih =>
    simp only [stable_insert]
    by_cases h : le a b = true
    · simp [h]
    · rw [if_neg h]
      exact (ih.cons b).trans (List.Perm.swap a b t)

theorem insertion_sort_perm {α : Type} (le : α → α → Bool) :
    ∀ l : List α, (insertion_sort le l).Perm l := by
  intro l
  induction l with
  | nil => simp [insertion_sort]
  | cons a t ih =>
    simp only [insertion_sort]
    exact (stable_insert_perm le a (insertion_sort le t)).trans (ih.cons a)

theorem insertion_sort_length {α : Type} (le : α → α → Bool) (l : List α) :
    (insertion_sort le l).length = l.length :=
  (insertion_sort_perm le l).length_eq

theorem mem_stable_insert {α : Type} (le : α → α → Bool) (a x : α)
    (l : List α) (hx : x ∈ stable_insert le a l) : x = a ∨ x ∈ l := by
  have := (stable_insert_perm le a l).mem_iff.mp hx
  simpa using this

theorem mem_insertion_sort {α : Type} (le : α → α → Bool) (x : α)
    (l : List α) (hx : x ∈ insertion_sort le l) : x ∈ l :=
  (insertion_sort_perm le l).mem_iff.mp hx

theorem stable_insert_pairwise {α : Type} (le : α → α → Bool)
    (htot : ∀ x y, le x y = true ∨ le y x = true)
    (htrans : ∀ x y z, le x y = true → le y z = true → le x z = true)
    (a : α) :
    ∀ l : List α, l.Pairwise (fun x y => le x y = true) →
      (stable_insert le a l).Pairwise (fun x y => le x y = true) := by
  intro l
  induction l with
  | nil => intro _; simp [stable_insert]
  | cons b t ih =>
    intro hl
    rw [List.pairwise_cons] at hl
    obtain ⟨hb, ht⟩ := hl
    simp only [stable_insert]
    by_cases h : le a b = true
    · simp only [if_pos h]
      refine List.Pairwise.cons ?_ (List.Pairwise.cons hb ht)
      intro x hx
      rcases List.mem_cons.mp hx with rfl | hx
      · exact h
      · exact htrans a b x h (hb x hx)
    · simp only [if_neg h]
      refine List.Pairwise.cons ?_ (ih ht)
      intro x hx
      rcases mem_stable_insert le a x t hx with rfl | hx
      · rcases htot x b with hxb | hbx
        · exact absurd hxb h
        · exact hbx
      · exact hb x hx

theorem insertion_sort_pairwise {α : Type} (le : α → α → Bool)
    (htot : ∀ x y, le x y = true ∨ le y x = true)
    (htrans : ∀ x y z, le x y = true → le y z = true → le x z = true) :
    ∀ l : List α, (insertion_sort le l).Pairwise (fun x y => le x y = true) := by
  intro l
  induction l with
  | nil => simp [insertion_sort]
  | cons a t ih =>
    simp only [insertion_sort]
    exact stable_insert_pairwise le htot htrans a (insertion_sort le t) ih

theorem filter_stable_insert_neg {α : Type} (le : α → α → Bool)
    (p : α → Bool) (a : α) (hpa : p a = false) :
    ∀ l : List α, (stable_insert le a l).filter p = l.filter p := by
  intro l
  induction l with
  | nil => simp [stable_insert, List.filter, hpa]
  | cons b t ih =>
    simp only [stable_insert]
    by_cases h : le a b = true
    · simp [h, List.filter, hpa]
    · simp only [if_neg h]
      simp only [List.filter]
      cases hb : p b <;> simp [ih]

theorem filter_stable_insert_pos {α : Type} (le : α → α → Bool)
    (p : α → Bool) (a : α) (hpa : p a = true) :
    ∀ l : List α, (∀ b ∈ l, p b = true → le a b = true) →
      (stable_insert le a l).filter p = a :: l.filter p := by
  intro l
  induction l with
  | nil => intro _; simp [stable_insert, List.filter, hpa]
  | cons b t ih =>
    intro hcl
    simp only [stable_insert]
    by_cases h : le a b = true
    · simp [h, List.filter, hpa]
    · simp only [if_neg h]
      have hpb : p b = false := by
        cases hb : p b
        · rfl
        · exact absurd (hcl b (by simp) hb) h
      simp only [List.filter, hpb]
      exact ih (fun x hx hpx => hcl x (by simp [hx]) hpx)

theorem insertion_sort_filter {α : Type} (le : α → α → Bool) (p : α → Bool)
    (hcl : ∀ x y, p x = true → p y = true → le x y = true) :
    ∀ l : List α, (insertion_sort le l).filter p = l.filter p := by
  intro l
  induction l with
  | nil => simp [insertion_sort]
  | cons a t ih =>
    simp only [insertion_sort]
    cases hpa : p a
    · rw [filter_stable_insert_neg le p a hpa, ih]
      simp [List.filter, hpa]
    · rw [filter_stable_insert_pos le p a hpa]
      · rw [ih]; simp [List.filter, hpa]
      · intro b hb hpb
        exact hcl a b hpa hpb

theorem insertion_sort_of_le_true {α : Type} (le : α → α → Bool)
    (hle : ∀ x y, le x y = true) : ∀ l : List α, insertion_sort le l = l := by
  intro l
  induction l with
  | nil => rfl
  | cons a t ih =>
    simp only [insertion_sort, ih]
    cases t with
    | nil => rfl
    | cons b u => simp [stable_insert, hle]

/-! ### Order facts about the element comparison -/

theorem tracker_element_lt_irrefl (x : Option Int) :
    tracker_element_lt x x = false := by
  cases x with
  | none => rfl
  | some a => simp [tracker_element_lt]

theorem tracker_element_lt_asymm (x y : Option Int)
    (h : tracker_element_lt x y = true) : tracker_element_lt y x = false := by
  cases x <;> cases y <;> simp_all [tracker_element_lt]
  omega

theorem tracker_element_not_lt_trans (a b c : Option Int)
    (h1 : tracker_element_lt b a = false)
    (h2 : tracker_element_lt c b = false) :
    tracker_element_lt c a = false := by
  cases a <;> cases b <;> cases c <;> simp_all [tracker_element_lt]
  omega

/-! ### The pagination slice -/

theorem dt_slice_code_eq_spec (s l : Nat) (vec : List Device) :
    dt_slice_code s l vec = dt_slice_spec s l vec := by
  simp only [dt_slice_code, dt_slice_spec]
  by_cases hs : vec.length ≤ s
  · rw [if_pos hs]
    by_cases h : l = 0 ∨ vec.length ≤ l + 0
    · have h' : l = 0 ∨ vec.length ≤ 0 + l := by omega
      rw [if_pos h, if_pos h', List.take_length]
    · have h' : ¬ (l = 0 ∨ vec.length ≤ 0 + l) := by omega
      rw [if_neg h, if_neg h', List.drop_take]
      congr 1
      omega
  · rw [if_neg hs]
    by_cases h : l = 0 ∨ vec.length ≤ l + s
    · have h' : l = 0 ∨ vec.length ≤ s + l := by omega
      rw [if_pos h, if_pos h', List.take_length]
    · have h' : ¬ (l = 0 ∨ vec.length ≤ s + l) := by omega
      rw [if_neg h, if_neg h', List.drop_take]
      congr 1
      omega

theorem dt_slice_spec_sublist (s l : Nat) (vec : List Device) :
    (dt_slice_spec s l vec).Sublist vec := by
  unfold dt_slice_spec
  by_cases h : l = 0 ∨ vec.length ≤ (if vec.length ≤ s then 0 else s) + l
  · rw [if_pos h]
    exact List.drop_sublist _ _
  · rw [if_neg h]
    exact ((List.take_sublist _ _).trans (List.drop_sublist _ _))

/-! ### The sort step -/

theorem dt_sort_step_perm (col : Int) (field : List Int) (dir : Nat)
    (l : List Device) : (dt_sort_step col field dir l).Perm l := by
  unfold dt_sort_step kismet__stable_sort
  by_cases h : 0 ≤ col
  · rw [if_pos h]
    exact insertion_sort_perm _ l
  · rw [if_neg h]

theorem dt_sort_step_length (col : Int) (field : List Int) (dir : Nat)
    (l : List Device) : (dt_sort_step col field dir l).length = l.length :=
  (dt_sort_step_perm col field dir l).length_eq

theorem dt_sort_step_neg (col : Int) (field : List Int) (dir : Nat)
    (l : List Device) (h : col < 0) : dt_sort_step col field dir l = l := by
  unfold dt_sort_step
  rw [if_neg (by omega)]

theorem dt_sort_step_empty_field (col : Int) (dir : Nat) (l : List Device) :
    dt_sort_step col [] dir l = l := by
  unfold dt_sort_step kismet__stable_sort
  by_cases h : 0 ≤ col
  · rw [if_pos h]
    apply insertion_sort_of_le_true
    intro x y
    unfold dt_sort_comp GetTrackerElementPath
    simp [tracker_element_lt]
  · rw [if_neg h]

theorem dt_sort_step_asc (col : Int) (field : List Int) (h : 0 ≤ col)
    (cands : List Device) :
    StableSortedBy (GetTrackerElementPath field)
      (fun x y => ! tracker_element_lt y x) cands
      (dt_sort_step col field 0 cands) := by
  have hcompat : ∀ a b : Device,
      (! dt_sort_comp field 0 b a) =
        (! tracker_element_lt (GetTrackerElementPath field b)
          (GetTrackerElementPath field a)) := by
    intro a b
    unfold dt_sort_comp
    rw [if_pos rfl]
  unfold dt_sort_step kismet__stable_sort
  rw [if_pos h]
  refine ⟨insertion_sort_perm _ cands, ?_, ?_⟩
  · have := insertion_sort_pairwise (fun x y => ! dt_sort_comp field 0 y x)
      (by
        intro x y
        simp only [hcompat]
        cases hb : tracker_element_lt (GetTrackerElementPath field y)
            (GetTrackerElementPath field x)
        · left; rfl
        · right
          rw [tracker_element_lt_asymm _ _ hb]
          rfl)
      (by
        intro x y z h1 h2
        simp only [hcompat] at h1 h2 ⊢
        rw [Bool.not_eq_true'] at h1 h2 ⊢
        exact tracker_element_not_lt_trans _ _ _ h1 h2)
      cands
    refine this.imp ?_
    intro a b hab
    rw [hcompat] at hab
    exact hab
  · intro v
    apply insertion_sort_filter
    intro x y hx hy
    rw [decide_eq_true_iff] at hx hy
    rw [hcompat, hx, hy, tracker_element_lt_irrefl]
    rfl

theorem dt_sort_step_desc (col : Int) (field : List Int) (h : 0 ≤ col)
    (cands : List Device) :
    StableSortedBy (GetTrackerElementPath field)
      (fun x y => ! tracker_element_lt x y) cands
      (dt_sort_step col field 1 cands) := by
  have hcompat : ∀ a b : Device,
      (! dt_sort_comp field 1 b a) =
        (! tracker_element_lt (GetTrackerElementPath field a)
          (GetTrackerElementPath field b)) := by
    intro a b
    unfold dt_sort_comp
    rw [if_neg (by omega)]
  unfold dt_sort_step kismet__stable_sort
  rw [if_pos h]
  refine ⟨insertion_sort_perm _ cands, ?_, ?_⟩
  · have := insertion_sort_pairwise (fun x y => ! dt_sort_comp field 1 y x)
      (by
        intro x y
        simp only [hcompat]
        cases hb : tracker_element_lt (GetTrackerElementPath field x)
            (GetTrackerElementPath field y)
        · left; rfl
        · right
          rw [tracker_element_lt_asymm _ _ hb]
          rfl)
      (by
        intro x y z h1 h2
        simp only [hcompat] at h1 h2 ⊢
        rw [Bool.not_eq_true'] at h1 h2 ⊢
        exact tracker_element_not_lt_trans _ _ _ h2 h1)
      cands
    refine this.imp ?_
    intro a b hab
    rw [hcompat] at hab
    exact hab
  · intro v
    apply insertion_sort_filter
    intro x y hx hy
    rw [decide_eq_true_iff] at hx hy
    rw [hcompat, hx, hy, tracker_element_lt_irrefl]
    rfl

/-! ### Projections of the full-scan branch -/

theorem summary_full_scan_new_tracked (vec : List Device)
    (sv : List SummaryField) (start len : Nat) (col : Int)
    (field : List Int) (dir : Nat) :
    (summary_full_scan_branch vec sv start len col field dir).new_tracked_vec
      = dt_sort_step col field dir vec := rfl

theorem summary_full_scan_selected (vec : List Device)
    (sv : List SummaryField) (start len : Nat) (col : Int)
    (field : List Int) (dir : Nat) :
    (summary_full_scan_branch vec sv start len col field dir).selected
      = dt_slice_code start len (dt_sort_step col field dir vec) := by
  simp only [summary_full_scan_branch, dt_slice_code, dt_sort_step_length]

theorem summary_full_scan_data_eq (vec : List Device)
    (sv : List SummaryField) (start len : Nat) (col : Int)
    (field : List Int) (dir : Nat) :
    (summary_full_scan_branch vec sv start len col field dir).data
      = ((summary_full_scan_branch vec sv start len col field dir).selected).map
          (SummarizeTrackerElement sv) := rfl

/-! ### Membership in the searchable-path set -/

theorem mem_dt_search_paths_go (searchable : Nat → Option String) :
    ∀ (l : List SummaryField) (ci : Nat) (q : List Int),
      q ∈ dt_search_paths_go searchable l ci →
      ∃ j f, l[j]? = some f ∧ searchable (ci + j) = some "true" ∧
        q = f.resolved_path := by
  intro l
  induction l with
  | nil =>
    intro ci q hq
    simp [dt_search_paths_go] at hq
  | cons f rest ih =>
    intro ci q hq
    simp only [dt_search_paths_go] at hq
    split at hq
    · rename_i s hf
      by_cases hs : s = "true"
      · rw [if_pos hs] at hq
        rcases List.mem_cons.mp hq with rfl | hq
        · refine ⟨0, f, by simp, ?_, rfl⟩
          rw [Nat.add_zero, hf, hs]
        · obtain ⟨j, g, hg, hflag, hqe⟩ := ih (ci + 1) q hq
          refine ⟨j + 1, g, by simpa using hg, ?_, hqe⟩
          rw [show ci + (j + 1) = ci + 1 + j by omega]
          exact hflag
      · rw [if_neg hs] at hq
        obtain ⟨j, g, hg, hflag, hqe⟩ := ih (ci + 1) q hq
        refine ⟨j + 1, g, by simpa using hg, ?_, hqe⟩
        rw [show ci + (j + 1) = ci + 1 + j by omega]
        exact hflag
    · simp at hq

/-! ### Lock traces -/

theorem record_acq_of_no_acq_struct :
    ∀ l : List LockEv, (∀ e ∈ l, e ≠ LockEv.acq_struct) →
      record_acq_while_struct_held false l = false := by
  intro l
  induction l with
  | nil => intro _; rfl
  | cons e t ih =>
    intro h
    cases e with
    | acq_struct => exact absurd rfl (h LockEv.acq_struct (by simp))
    | rel_struct =>
      simp only [record_acq_while_struct_held]
      exact ih (fun x hx => h x (by simp [hx]))
    | acq_record k =>
      simp only [record_acq_while_struct_held, Bool.false_or]
      exact ih (fun x hx => h x (by simp [hx]))
    | rel_record k =>
      simp only [record_acq_while_struct_held]
      exact ih (fun x hx => h x (by simp [hx]))

/-! ### Claim theorems -/

/-- C1 counterexample: the claim predicts that sort column 0 with the
non-"asc" direction "desc" over candidates with lastseen 100 and 200 puts the
200 record first; the code's comparator leaves `dt_order_dir = 0` and sorts
ascending, so the 100 record stays first. -/
theorem c1_counterexample :
    dt_sort_step 0 (dt_order_field_of 0 (some "desc") sv_ts)
        (dt_order_dir_of 0 (some "desc")) [dev100, dev200]
      = [dev100, dev200] ∧
    dt_sort_step 0 (dt_order_field_of 0 (some "desc") sv_ts)
        (dt_order_dir_of 0 (some "desc")) [dev100, dev200]
      ≠ [dev200, dev100] := by
  decide

/-- C1 (amended): with a valid sort column, the candidates are stably sorted
by the resolved field values at that column (a permutation, pairwise ordered,
every key class keeping its prior relative order) — but the directions are
the reverse of the claim: a direction parameter other than "asc" sorts
ascending, "asc" sorts descending, and when no direction parameter is given
the sort field is never assigned, every comparison ties, and the order is
unchanged. -/
theorem c1_sort_direction_amended (summary_vec : List SummaryField)
    (col : Int) (s : String) (cands : List Device) (h0 : 0 ≤ col)
    (h1 : col.toNat < summary_vec.length) :
    (s ≠ "asc" →
      StableSortedBy
        (GetTrackerElementPath (dt_order_field_of col (some s) summary_vec))
        (fun x y => ! tracker_element_lt y x) cands
        (dt_sort_step col (dt_order_field_of col (some s) summary_vec)
          (dt_order_dir_of col (some s)) cands)) ∧
    (s = "asc" →
      StableSortedBy
        (GetTrackerElementPath (dt_order_field_of col (some s) summary_vec))
        (fun x y => ! tracker_element_lt x y) cands
        (dt_sort_step col (dt_order_field_of col (some s) summary_vec)
          (dt_order_dir_of col (some s)) cands)) ∧
    (∃ f, summary_vec[col.toNat]? = some f ∧
      dt_order_field_of col (some s) summary_vec = f.resolved_path) ∧
    dt_sort_step col (dt_order_field_of col none summary_vec)
      (dt_order_dir_of col none) cands = cands := by
  refine ⟨?_, ?_, ?_, ?_⟩
  · intro hs
    have hdir : dt_order_dir_of col (some s) = 0 := by
      simp only [dt_order_dir_of]
      rw [if_neg (by tauto)]
    rw [hdir]
    exact dt_sort_step_asc col _ h0 cands
  · intro hs
    have hdir : dt_order_dir_of col (some s) = 1 := by
      simp only [dt_order_dir_of]
      rw [if_pos ⟨h0, hs⟩]
    rw [hdir]
    exact dt_sort_step_desc col _ h0 cands
  · refine ⟨summary_vec[col.toNat], List.getElem?_eq_getElem h1, ?_⟩
    unfold dt_order_field_of
    rw [if_pos h0, List.getElem?_eq_getElem h1]
  · exact dt_sort_step_empty_field col _ cands

/-- C1 witness: the amended sort property applied at summary vector
`[("lastseen","ts")]`, column 0, direction "desc", candidates
`[dev100, dev200]`. -/
theorem c1_witness :
    StableSortedBy
      (GetTrackerElementPath (dt_order_field_of 0 (some "desc") sv_ts))
      (fun x y => ! tracker_element_lt y x) [dev100, dev200]
      (dt_sort_step 0 (dt_order_field_of 0 (some "desc") sv_ts)
        (dt_order_dir_of 0 (some "desc")) [dev100, dev200]) :=
  (c1_sort_direction_amended sv_ts 0 "desc" [dev100, dev200]
    (by decide) (by decide)).1 (by decide)

/-- C2 counterexample: a summary query on the full-scan branch with a valid
sort column reorders the store's `tracked_vec` in place — after the query the
append-ordered sequence `[dev200, dev100]` has become `[dev100, dev200]`. -/
theorem c2_counterexample :
    (summary_full_scan_branch [dev200, dev100] sv_ts 0 50 0 [1] 0).new_tracked_vec
      = [dev100, dev200] ∧
    (summary_full_scan_branch [dev200, dev100] sv_ts 0 50 0 [1] 0).new_tracked_vec
      ≠ [dev200, dev100] := by
  decide

/-- C2 (amended): the full-scan summary branch sorts `tracked_vec` in place,
so after the query the store sequence is a permutation of the original, and
it is guaranteed unchanged only when the sort does not run (no valid sort
column). -/
theorem c2_tracked_vec_amended (vec : List Device) (sv : List SummaryField)
    (start len : Nat) (col : Int) (field : List Int) (dir : Nat) :
    ((summary_full_scan_branch vec sv start len col field dir).new_tracked_vec).Perm
      vec ∧
    (col < 0 →
      (summary_full_scan_branch vec sv start len col field dir).new_tracked_vec
        = vec) := by
  constructor
  · rw [summary_full_scan_new_tracked]
    exact dt_sort_step_perm col field dir vec
  · intro h
    rw [summary_full_scan_new_tracked]
    exact dt_sort_step_neg col field dir vec h

/-- C2 witness: the amended store-sequence property applied at store
`[dev100]` and sort column -1. -/
theorem c2_witness :
    ((summary_full_scan_branch [dev100] sv_ts 0 50 (-1) [] 0).new_tracked_vec).Perm
      [dev100] ∧
    (summary_full_scan_branch [dev100] sv_ts 0 50 (-1) [] 0).new_tracked_vec
      = [dev100] :=
  ⟨(c2_tracked_vec_amended [dev100] sv_ts 0 50 (-1) [] 0).1,
    (c2_tracked_vec_amended [dev100] sv_ts 0 50 (-1) [] 0).2 (by decide)⟩

/-- C3: the records selected for summarization are exactly the contiguous
slice `scan[s:s+l]` of the (possibly sorted) candidate sequence — `s` resets
to 0 when `s ≥ N` and the slice runs through the end when `l = 0` or
`s + l ≥ N` — both for the slice arithmetic in isolation and as it is used by
the full-scan summary branch, whose output rows summarize exactly that
slice. -/
theorem c3_pagination_slice (scan : List Device) (s l : Nat)
    (vec : List Device) (sv : List SummaryField) (dt_start dt_length : Nat)
    (col : Int) (field : List Int) (dir : Nat) :
    dt_slice_code s l scan = dt_slice_spec s l scan ∧
    (summary_full_scan_branch vec sv dt_start dt_length col field dir).selected
      = dt_slice_spec dt_start dt_length
          (summary_full_scan_branch vec sv dt_start dt_length col field
            dir).new_tracked_vec ∧
    (summary_full_scan_branch vec sv dt_start dt_length col field dir).data
      = ((summary_full_scan_branch vec sv dt_start dt_length col field
          dir).selected).map (SummarizeTrackerElement sv) := by
  refine ⟨dt_slice_code_eq_spec s l scan, ?_, rfl⟩
  rw [summary_full_scan_selected, summary_full_scan_new_tracked]
  exact dt_slice_code_eq_spec dt_start dt_length _

/-- C4: candidate selection follows the fixed precedence — a supplied regex
filter runs over the full scan and its survivors are the candidates; with no
regex, a non-empty searchable-path set routes the full scan through the
substring worker; otherwise the candidates are the full ordered scan.
Moreover every entry of the searchable-path set arises from a non-empty
search string and a summary-vector column whose searchable flag is "true". -/
theorem c4_plan_precedence
    (pcre_worker : String → List Device → List Device)
    (stringmatch_worker : String → List (List Int) → List Device → List Device)
    (rd dt_search : String) (p : List Int) (ps : List (List Int))
    (tracked_vec : List Device) (summary_vec : List SummaryField)
    (searchable : Nat → Option String) (q : List Int)
    (hq : q ∈ dt_search_paths_of dt_search summary_vec searchable) :
    plan_candidates pcre_worker stringmatch_worker (some rd) dt_search ps
        tracked_vec
      = pcre_worker rd tracked_vec ∧
    plan_candidates pcre_worker stringmatch_worker none dt_search (p :: ps)
        tracked_vec
      = stringmatch_worker dt_search (p :: ps) tracked_vec ∧
    plan_candidates pcre_worker stringmatch_worker none dt_search []
        tracked_vec
      = tracked_vec ∧
    dt_search.length ≠ 0 ∧
    (∃ j f, summary_vec[j]? = some f ∧ searchable j = some "true" ∧
      q = f.resolved_path) := by
  have hlen : dt_search.length ≠ 0 := by
    intro hdl
    unfold dt_search_paths_of at hq
    rw [if_pos hdl] at hq
    simp at hq
  refine ⟨rfl, by simp [plan_candidates], rfl, hlen, ?_⟩
  unfold dt_search_paths_of at hq
  rw [if_neg hlen] at hq
  obtain ⟨j, f, hf, hflag, hqe⟩ :=
    mem_dt_search_paths_go searchable summary_vec 0 q hq
  exact ⟨j, f, hf, by simpa using hflag, hqe⟩

/-- C4 witness: the precedence theorem applied with concrete workers, search
string "q", searchable-path set built from `[("lastseen","ts")]` with every
column flagged searchable. -/
theorem c4_witness :
    ∃ j f, sv_ts[j]? = some f ∧
      (fun _ : Nat => some "true") j = some "true" ∧ [1] = f.resolved_path :=
  (c4_plan_precedence (fun _ l => l) (fun _ _ l => l) "r" "q" [2] []
    [dev100] sv_ts (fun _ => some "true") [1] (by decide)).2.2.2.2

/-- C5: a record passes the last-time filter iff its last-seen timestamp is
strictly greater than the effective cutoff, the effective cutoff being the
cutoff itself when non-negative and now + cutoff when negative; at current
time 180 the cutoff -50 becomes 130, so exactly the records with last-seen
greater than 130 pass. -/
theorem c5_last_time_cutoff (now lastts : Int) (scan : List Device)
    (d : Device) :
    (d ∈ last_time_filter now lastts scan ↔
      d ∈ scan ∧ lastts_effective now lastts < d.last_time) ∧
    lastts_effective now lastts = (if lastts < 0 then now + lastts else lastts) ∧
    lastts_effective 180 (-50) = 130 ∧
    last_time_filter 180 (-50) [dev100, dev200] = [dev200] := by
    refine ⟨?_, rfl, by decide, by decide⟩
    unfold last_time_filter
    rw [List.mem_filter]
    simp

/-- C6 counterexample: on the full-scan summary branch the per-record lock of
a selected device is acquired while `devicelist_mutex` is still held, so the
claimed rule "never hold the structural lock while acquiring a record lock"
fails on a one-device store. -/
theorem c6_counterexample :
    record_acq_while_struct_held false (summary_full_scan_trace [dev100])
      = true := by
  decide

/-- C6 (amended): the regex and substring-search branches acquire per-record
locks only after the structural lock is released, but the full-scan summary
branch and the POST by-mac branch acquire each selected record's lock while
`devicelist_mutex` is held (whenever at least one record is selected). -/
theorem c6_lock_order_amended (matched sel : List Device) :
    record_acq_while_struct_held false (summary_pcre_trace matched sel)
      = false ∧
    record_acq_while_struct_held false (summary_stringmatch_trace matched)
      = false ∧
    (sel ≠ [] →
      record_acq_while_struct_held false (summary_full_scan_trace sel)
        = true) ∧
    (matched ≠ [] →
      record_acq_while_struct_held false (post_by_mac_trace matched)
        = true) := by
  refine ⟨?_, ?_, ?_, ?_⟩
  · simp only [summary_pcre_trace, record_acq_while_struct_held]
    apply record_acq_of_no_acq_struct
    intro e he
    simp only [List.mem_append, List.mem_map] at he
    rcases he with ((⟨d, _, rfl⟩ | ⟨d, _, rfl⟩) | ⟨d, _, rfl⟩) | ⟨d, _, rfl⟩ <;>
      simp
  · simp only [summary_stringmatch_trace, record_acq_while_struct_held]
    apply record_acq_of_no_acq_struct
    intro e he
    simp only [List.mem_append, List.mem_map] at he
    rcases he with ⟨d, _, rfl⟩ | ⟨d, _, rfl⟩ <;> simp
  · intro hsel
    cases sel with
    | nil => exact absurd rfl hsel
    | cons d ds =>
      simp [summary_full_scan_trace, record_acq_while_struct_held]
  · intro hm
    cases matched with
    | nil => exact absurd rfl hm
    | cons d ds =>
      simp [post_by_mac_trace, record_acq_while_struct_held]

/-- C6 witness: the amended lock-order property applied at matched records
`[dev200]` and selected records `[dev100]`. -/
theorem c6_witness :
    record_acq_while_struct_held false (summary_pcre_trace [dev200] [dev100])
      = false ∧
    record_acq_while_struct_held false (summary_stringmatch_trace [dev200])
      = false ∧
    record_acq_while_struct_held false (summary_full_scan_trace [dev100])
      = true ∧
    record_acq_while_struct_held false (post_by_mac_trace [dev200])
      = true :=
  ⟨(c6_lock_order_amended [dev200] [dev100]).1,
    (c6_lock_order_amended [dev200] [dev100]).2.1,
    (c6_lock_order_amended [dev200] [dev100]).2.2.1 (by decide),
    (c6_lock_order_amended [dev200] [dev100]).2.2.2 (by decide)⟩

/-- C7: for every possible value of `in_dt_length` (including the arbitrary
value read when the form variable is absent) the effective page length lies
in [1, 200]: it equals the supplied length when that is in [1, 200] and falls
back to the default 50 otherwise. -/
theorem c7_length_clamp (v : Int) :
    1 ≤ dt_length_of v ∧ dt_length_of v ≤ 200 ∧
    (dt_length_of v : Int) = (if 1 ≤ v ∧ v ≤ 200 then v else 50) := by
  unfold dt_length_of
  by_cases h : v ≤ 0 ∨ 200 < v
  · rw [if_pos h, if_neg (by omega)]
    refine ⟨by norm_num, by norm_num, by norm_num⟩
  · rw [if_neg h, if_pos (by omega)]
    refine ⟨by omega, by omega, by omega⟩

/-- C8: with an out-of-range sort column parameter (negative, or at least the
summary-vector length) the effective sort column is negative, no sort is
performed, the store sequence is untouched, and the output is the pagination
slice of the candidates in their original order (an order-preserving sublist
of the full scan). -/
theorem c8_out_of_range_col (summary_vec : List SummaryField) (c : Int)
    (vec : List Device) (dt_start dt_length : Nat) (field : List Int)
    (dir : Nat) (h : c < 0 ∨ (summary_vec.length : Int) ≤ c) :
    dt_order_col_of (some c) summary_vec.length < 0 ∧
    (summary_full_scan_branch vec summary_vec dt_start dt_length
      (dt_order_col_of (some c) summary_vec.length) field dir).new_tracked_vec
      = vec ∧
    (summary_full_scan_branch vec summary_vec dt_start dt_length
      (dt_order_col_of (some c) summary_vec.length) field dir).selected
      = dt_slice_spec dt_start dt_length vec ∧
    ((summary_full_scan_branch vec summary_vec dt_start dt_length
      (dt_order_col_of (some c) summary_vec.length) field dir).selected).Sublist
      vec := by
  have hcol : dt_order_col_of (some c) summary_vec.length < 0 := by
    simp only [dt_order_col_of]
    rcases h with h | h
    · rw [if_neg (by omega)]
      exact h
    · rw [if_pos h]
      norm_num
  have hsel : (summary_full_scan_branch vec summary_vec dt_start dt_length
      (dt_order_col_of (some c) summary_vec.length) field dir).selected
      = dt_slice_spec dt_start dt_length vec := by
    rw [summary_full_scan_selected, dt_sort_step_neg _ _ _ _ hcol,
      dt_slice_code_eq_spec]
  refine ⟨hcol, ?_, hsel, ?_⟩
  · rw [summary_full_scan_new_tracked, dt_sort_step_neg _ _ _ _ hcol]
  · rw [hsel]
    exact dt_slice_spec_sublist dt_start dt_length vec

/-- C8 witness: the out-of-range-column property applied at column parameter
5 against the one-column summary vector, store `[dev200, dev100]`, start 0,
length 3. -/
theorem c8_witness :
    dt_order_col_of (some 5) sv_ts.length < 0 ∧
    (summary_full_scan_branch [dev200, dev100] sv_ts 0 3
      (dt_order_col_of (some 5) sv_ts.length) [1] 0).new_tracked_vec
      = [dev200, dev100] ∧
    (summary_full_scan_branch [dev200, dev100] sv_ts 0 3
      (dt_order_col_of (some 5) sv_ts.length) [1] 0).selected
      = dt_slice_spec 0 3 [dev200, dev100] ∧
    ((summary_full_scan_branch [dev200, dev100] sv_ts 0 3
      (dt_order_col_of (some 5) sv_ts.length) [1] 0).selected).Sublist
      [dev200, dev100] :=
  c8_out_of_range_col sv_ts 5 [dev200, dev100] 0 3 [1] 0 (by decide)

/-- C9: a POST by-key `set_name` request without a valid session returns
immediately: the store is unchanged and nothing is written to the stream —
no error body, just a no-op completion. -/
theorem c9_set_name_no_session (store : List Device)
    (summary_vec : List SummaryField) (d : Device) :
    post_by_key (some d) summary_vec "set_name" false store
      = (store, ByKeyResponse.empty) := by
  simp [post_by_key]

/-- C10: when a POST body carries both a `msgpack` and a `json` variable, the
decoder consumes only the msgpack payload; the json payload has no effect on
the decoded structure. -/
theorem c10_msgpack_precedence (m j j2 : String) :
    decode_post_structdata (some m) (some j)
      = Except.ok (StructSource.msgpack_payload m) ∧
    decode_post_structdata (some m) (some j)
      = decode_post_structdata (some m) (some j2) :=
  ⟨rfl, rfl⟩
